import Mathlib

set_option maxRecDepth 8000

/-! Shallow embedding of the sprite pipeline of
`vite-svg-sprite-generator-plugin.ts`.  Strings are modelled as `List Char`.
Node's `path` functions are modelled with POSIX semantics, and the JavaScript
regular expressions used by the plugin are modelled by explicit scanning
functions reproducing their matching behaviour (leftmost match, the concrete
greedy/lazy structure of each pattern, `g`/`i`/`s` flags as used). -/
/-- Convert a Lean string literal to the character-list representation used by
the whole model. -/
def str (s : String) : List Char := s.data

/-- Lowercase an ASCII character (used for the `i` regex flag). -/
def lowerChar (c : Char) : Char :=
  if 'A' ≤ c ∧ c ≤ 'Z' then Char.ofNat (c.toNat + 32) else c

/-- Word character of the JavaScript `\w` class: `[A-Za-z0-9_]`. -/
def isWordChar (c : Char) : Bool :=
  ('a' ≤ c && c ≤ 'z') || ('A' ≤ c && c ≤ 'Z') || ('0' ≤ c && c ≤ '9') || c = '_'

/-- Whitespace of the JavaScript `\s` class, restricted to its ASCII members
(space, tab, newline, carriage return, vertical tab, form feed). -/
def isSpaceChar (c : Char) : Bool :=
  c = ' ' || c = '\t' || c = '\n' || c = '\r' || c = Char.ofNat 11 || c = Char.ofNat 12

/-- Quote characters of the `["']` regex class. -/
def isQuoteChar (c : Char) : Bool := c = '"' || c = '\''

/-- Case-insensitive "starts with": the pattern is given in lowercase. -/
def ciStarts : List Char → List Char → Bool
  | [], _ => true
  | _ :: _, [] => false
  | p :: ps, c :: cs => (lowerChar c = p) && ciStarts ps cs

/-- Index of the first case-insensitive occurrence of `pat` in `s`. -/
def findIdxCI (pat : List Char) : List Char → Option Nat
  | [] => if pat.isEmpty then some 0 else none
  | c :: rest =>
    if ciStarts pat (c :: rest) then some 0 else (findIdxCI pat rest).map (· + 1)

/-- Case-sensitive substring test (JavaScript `String.prototype.includes`). -/
def containsLit (pat : List Char) : List Char → Bool
  | [] => pat.isEmpty
  | c :: rest => List.isPrefixOf pat (c :: rest) || containsLit pat rest

/-- JavaScript `String.prototype.trim` (over the modelled whitespace class). -/
def trimChars (s : List Char) : List Char :=
  ((s.dropWhile isSpaceChar).reverse.dropWhile isSpaceChar).reverse

/-- Decimal rendering of a natural number (template-literal stringification of
the modification timestamps, which are modelled as naturals). -/
def natChars (n : Nat) : List Char := (Nat.repr n).data

/-! ## POSIX path model (Node `path.resolve` / `path.relative` /
`path.isAbsolute`, and Vite `normalizePath`) -/
/-- Split a path into its `/`-separated segments, dropping empty segments; the
first argument accumulates the current segment in reverse. -/
def splitSegsAux : List Char → List Char → List (List Char)
  | acc, [] => if acc = [] then [] else [acc.reverse]
  | acc, c :: rest =>
    if c = '/' then
      if acc = [] then splitSegsAux [] rest else acc.reverse :: splitSegsAux [] rest
    else splitSegsAux (c :: acc) rest

/-- Segments of a path string. -/
def splitSegs (s : List Char) : List (List Char) := splitSegsAux [] s

/-- One step of Node path normalization over a reversed segment stack: `.` is
dropped, `..` pops the previous segment (with nothing to pop at the root it is
dropped, as in `path.resolve` for absolute paths), other segments are pushed. -/
def normStep (stack : List (List Char)) (seg : List Char) : List (List Char) :=
  if seg = ['.'] then stack
  else if seg = ['.', '.'] then stack.tail
  else seg :: stack

/-- Node normalization of the segments of an absolute path. -/
def normSegs (segs : List (List Char)) : List (List Char) :=
  (segs.foldl normStep []).reverse

/-- Render segments back to a path body (`intercalate "/"`). -/
def joinSegs : List (List Char) → List Char
  | [] => []
  | [s] => s
  | s :: rest => s ++ '/' :: joinSegs rest

/-- Render the normalized segments of an absolute path (leading `/`). -/
def absString (segs : List (List Char)) : List Char := '/' :: joinSegs segs

/-- Node `path.isAbsolute` (POSIX). -/
def isAbsolutePath : List Char → Bool
  | [] => false
  | c :: _ => c = '/'

/-- Normalized segments of a path string. -/
def pathSegs (s : List Char) : List (List Char) := normSegs (splitSegs s)

/-- Node `path.resolve(root, p)` for an absolute `root` (POSIX): an absolute
`p` is normalized on its own, otherwise `p` is joined to `root` and the result
is normalized. -/
def resolvePath (root p : List Char) : List Char :=
  if isAbsolutePath p then absString (pathSegs p)
  else absString (pathSegs (root ++ '/' :: p))

/-- Drop the longest common segment run of two segment lists, returning both
remainders (the core of Node `path.relative`). -/
def dropCommon : List (List Char) → List (List Char) → List (List Char) × List (List Char)
  | a :: as, b :: bs => if a = b then dropCommon as bs else (a :: as, b :: bs)
  | as, bs => (as, bs)

/-- Node `path.relative(base, target)` for absolute arguments (POSIX): one
`..` per remaining base segment, then the remaining target segments. -/
def relativePath (base target : List Char) : List Char :=
  let p := dropCommon (pathSegs base) (pathSegs target)
  joinSegs (List.replicate p.1.length ['.', '.'] ++ p.2)

/-- Vite `normalizePath` on POSIX: `path.posix.normalize`. -/
def normalizePath (p : List Char) : List Char :=
  if isAbsolutePath p then absString (pathSegs p) else joinSegs (pathSegs p)

/-- `validateIconsPath` (source lines 685-724): rejects the empty path, then
resolves against the project root, takes the relative path from the root, and
fails when that relative path starts with the two characters `..` or is
absolute; otherwise returns the Vite-normalized absolute path. -/
def validateIconsPath (userPath projectRoot : List Char) : Except (List Char) (List Char) :=
  if userPath = [] then Except.error (str "iconsFolder must be a non-empty string")
  else
    let absolutePath := resolvePath projectRoot userPath
    let relPath := relativePath projectRoot absolutePath
    if List.isPrefixOf (str "..") relPath || isAbsolutePath relPath then
      Except.error (str "Security Error: Invalid iconsFolder path")
    else Except.ok (normalizePath absolutePath)

/-- Specification-side notion for C1: the resolution of a path lies inside the
project root when the root's normalized segments are an initial run of the
target's normalized segments. -/
def resolvesInside (root target : List Char) : Bool :=
  decide ((dropCommon (pathSegs root) (pathSegs target)).1 = [])

/-- Remaining target segments below the root. -/
def restSegs (root target : List Char) : List (List Char) :=
  (dropCommon (pathSegs root) (pathSegs target)).2

/-- Does the first of the remaining segments itself begin with `..`
(e.g. a directory literally named `..b`)? -/
def headDotDot : List (List Char) → Bool
  | (c1 :: c2 :: _) :: _ => c1 = '.' && c2 = '.'
  | _ => false

/-! ## Content sanitizer (`SECURITY_PATTERNS`, `sanitizeSVGContent`,
source lines 147-158 and 213-220).  Each matcher decides whether the
corresponding regular expression matches at the start of the given suffix and,
if so, returns the length of the (deterministic) match. -/
/-- Matcher for the `script` pattern
`<script\b[^<]*(?:(?!<\/script>)<[^<]*)*<\/script>` with flags `gi`: a
case-insensitive `<script` with a word boundary, then anything up to and
including the first case-insensitive `</script>`. -/
def scriptMatchAt (s : List Char) : Option Nat :=
  if ciStarts (str "<script") s then
    let r1 := s.drop 7
    let boundaryOk := match r1 with
      | [] => true
      | c :: _ => !(isWordChar c)
    if boundaryOk then
      match findIdxCI (str "</script>") r1 with
      | some j => some (7 + j + 9)
      | none => none
    else none
  else none

/-- Matcher for the `eventHandlers` pattern
`\s+on\w+\s*=\s*["'][^"']*["']` with flags `gi`. -/
def eventHandlersMatchAt (s : List Char) : Option Nat :=
  let p1 := s.span isSpaceChar
  if p1.1.isEmpty then none
  else if ciStarts (str "on") p1.2 then
    let p2 := (p1.2.drop 2).span isWordChar
    if p2.1.isEmpty then none
    else
      let p3 := p2.2.span isSpaceChar
      match p3.2 with
      | '=' :: r5 =>
        let p4 := r5.span isSpaceChar
        match p4.2 with
        | q :: r7 =>
          if isQuoteChar q then
            let p5 := r7.span (fun c => !(isQuoteChar c))
            match p5.2 with
            | q2 :: _ =>
              if isQuoteChar q2 then
                some (p1.1.length + 2 + p2.1.length + p3.1.length + 1
                  + p4.1.length + 1 + p5.1.length + 1)
              else none
            | [] => none
          else none
        | _ => none
      | _ => none
  else none

/-- Matcher for the `javascriptUrls` pattern
`(?:href|xlink:href)\s*=\s*["']javascript:[^"']*["']` with flags `gi`. -/
def javascriptUrlsMatchAt (s : List Char) : Option Nat :=
  let hd : Option Nat :=
    if ciStarts (str "xlink:href") s then some 10
    else if ciStarts (str "href") s then some 4
    else none
  match hd with
  | none => none
  | some n =>
    let p1 := (s.drop n).span isSpaceChar
    match p1.2 with
    | '=' :: r3 =>
      let p2 := r3.span isSpaceChar
      match p2.2 with
      | q :: r5 =>
        if isQuoteChar q then
          if ciStarts (str "javascript:") r5 then
            let p3 := (r5.drop 11).span (fun c => !(isQuoteChar c))
            match p3.2 with
            | q2 :: _ =>
              if isQuoteChar q2 then
                some (n + p1.1.length + 1 + p2.1.length + 1 + 11 + p3.1.length + 1)
              else none
            | [] => none
          else none
        else none
      | [] => none
    | _ => none

/-- Matcher for the `dataHtmlUrls` pattern
`href\s*=\s*["']data:text\/html[^"']*["']` with flags `gi`. -/
def dataHtmlUrlsMatchAt (s : List Char) : Option Nat :=
  if ciStarts (str "href") s then
    let p1 := (s.drop 4).span isSpaceChar
    match p1.2 with
    | '=' :: r3 =>
      let p2 := r3.span isSpaceChar
      match p2.2 with
      | q :: r5 =>
        if isQuoteChar q then
          if ciStarts (str "data:text/html") r5 then
            let p3 := (r5.drop 14).span (fun c => !(isQuoteChar c))
            match p3.2 with
            | q2 :: _ =>
              if isQuoteChar q2 then
                some (4 + p1.1.length + 1 + p2.1.length + 1 + 14 + p3.1.length + 1)
              else none
            | [] => none
          else none
        else none
      | [] => none
    | _ => none
  else none

/-- Matcher for the `foreignObject` pattern
`<foreignObject\b[^>]*>.*?<\/foreignObject>` with flags `gis`. -/
def foreignObjectMatchAt (s : List Char) : Option Nat :=
  if ciStarts (str "<foreignobject") s then
    let r1 := s.drop 14
    let boundaryOk := match r1 with
      | [] => true
      | c :: _ => !(isWordChar c)
    if boundaryOk then
      let p1 := r1.span (fun c => !(c = '>'))
      match p1.2 with
      | _ :: r3 =>
        match findIdxCI (str "</foreignobject>") r3 with
        | some j => some (14 + p1.1.length + 1 + j + 16)
        | none => none
      | [] => none
    else none
  else none

/-- Global regex replacement by the empty string (`String.prototype.replace`
with a `g` flag): scan left to right, removing each non-overlapping match and
continuing after it.  The fuel argument is the length of the remaining input
(each step consumes at least one character). -/
def removeAllAux (m : List Char → Option Nat) : Nat → List Char → List Char
  | _, [] => []
  | 0, s => s
  | fuel + 1, c :: rest =>
    match m (c :: rest) with
    | some (n + 1) => removeAllAux m fuel (rest.drop n)
    | _ => c :: removeAllAux m fuel rest

/-- Remove every match of the pattern from the string. -/
def removeAll (m : List Char → Option Nat) (s : List Char) : List Char :=
  removeAllAux m s.length s

/-- `sanitizeSVGContent` (source lines 213-220): the five global pattern
replacements, applied in source order. -/
def sanitizeSVGContent (s : List Char) : List Char :=
  removeAll foreignObjectMatchAt
    (removeAll dataHtmlUrlsMatchAt
      (removeAll javascriptUrlsMatchAt
        (removeAll eventHandlersMatchAt
          (removeAll scriptMatchAt s))))

/-- No suffix of the string matches the pattern. -/
def matchFree (m : List Char → Option Nat) : List Char → Bool
  | [] => true
  | c :: rest => (m (c :: rest)).isNone && matchFree m rest

/-- The string contains no match of any of the five security patterns. -/
def matchFreeAll (s : List Char) : Bool :=
  matchFree scriptMatchAt s && matchFree eventHandlersMatchAt s
    && matchFree javascriptUrlsMatchAt s && matchFree dataHtmlUrlsMatchAt s
    && matchFree foreignObjectMatchAt s

/-! ## Symbol identifiers (`generateSymbolId`, source lines 318-325) and
tree-shaking filter (`filterUsedSvgFiles`, source lines 522-561) -/
/-- Character class `[a-zA-Z0-9-_]` kept by the identifier sanitization. -/
def isIdentChar (c : Char) : Bool :=
  ('a' ≤ c && c ≤ 'z') || ('A' ≤ c && c ≤ 'Z') || ('0' ≤ c && c ≤ '9') || c = '-' || c = '_'

/-- Node `path.basename` (POSIX): last path component, ignoring trailing
slashes; an all-slash path gives `/`, the empty path gives the empty string. -/
def nodeBasename (p : List Char) : List Char :=
  let r := p.reverse.dropWhile (fun c => c = '/')
  if r = [] then (if p = [] then [] else ['/'])
  else (r.takeWhile (fun c => !(c = '/'))).reverse

/-- Node `path.basename(p, ext)`: the basename with `ext` stripped when it is
a proper suffix of the basename (Node keeps a basename equal to `ext`). -/
def nodeBasenameExt (p ext : List Char) : List Char :=
  let b := nodeBasename p
  if b ≠ ext ∧ List.isSuffixOf ext b then b.take (b.length - ext.length) else b

/-- State machine for `replace(/[^a-zA-Z0-9-_]+/g, '-')`: a run of characters
outside the class becomes a single `-`; the flag records whether the scanner
is inside such a run. -/
def collapseGo : Bool → List Char → List Char
  | _, [] => []
  | inRun, c :: rest =>
    if isIdentChar c then c :: collapseGo false rest
    else if inRun then collapseGo true rest
    else '-' :: collapseGo true rest

/-- `fileName.replace(/[^a-zA-Z0-9-_]+/g, '-')`. -/
def collapseNonIdent (s : List Char) : List Char := collapseGo false s

/-- `.replace(/^-+|-+$/g, '')`: strip leading and trailing dash runs. -/
def trimDashes (s : List Char) : List Char :=
  ((s.dropWhile (fun c => c = '-')).reverse.dropWhile (fun c => c = '-')).reverse

/-- The `cleanName` computed by `generateSymbolId` from a file path. -/
def cleanNameOf (filePath : List Char) : List Char :=
  trimDashes (collapseNonIdent (nodeBasenameExt filePath (str ".svg")))

/-- `generateSymbolId` (source lines 318-325): clean name of the `.svg`-less
basename, with `pre ++ "-"` prepended when the configured id prefix `pre` is
non-empty. -/
def generateSymbolId (filePath pre : List Char) : List Char :=
  if pre = [] then cleanNameOf filePath else pre ++ '-' :: cleanNameOf filePath

/-- Modelled from the words of claim C8 for the refinement comparison: the
identifier derivation with the file name LOWERCASED before sanitization (the
source never lowercases). -/
def generateSymbolIdSpec (filePath pre : List Char) : List Char :=
  let lowered := (nodeBasenameExt filePath (str ".svg")).map lowerChar
  let clean := trimDashes (collapseNonIdent lowered)
  if pre = [] then clean else pre ++ '-' :: clean

/-- `filterUsedSvgFiles` (source lines 522-561): with an empty used-identifier
set every file is kept (fail-safe); otherwise a file is kept exactly when its
derived identifier is a member of the set. -/
def filterUsedSvgFiles (allSvgFiles usedIconIds : List (List Char)) (idPre : List Char) :
    List (List Char) :=
  if usedIconIds.isEmpty then allSvgFiles
  else allSvgFiles.filter (fun filePath => usedIconIds.contains (generateSymbolId filePath idPre))

/-! ## Sprite assembly (`generateSymbol`, `generateSprite`,
`buildSpriteFromFilesInternal`, source lines 239-267 and 901-940) -/
/-- Result of parsing one SVG file (source interface `ParsedSVG`). -/
structure ParsedSVG where
  viewBox : List Char
  content : List Char
deriving DecidableEq

/-- One emitted symbol: its identifier, originating file and parsed record
(the rendered symbol string is `generateSymbol sid parsed.content
parsed.viewBox`). -/
structure SymbolRec where
  sid : List Char
  fp : List Char
  parsed : ParsedSVG
deriving DecidableEq

/-- Escaping of the five HTML-significant characters in a symbol id. -/
def escapeChar (c : Char) : List Char :=
  if c = '<' then str "&lt;"
  else if c = '>' then str "&gt;"
  else if c = '"' then str "&quot;"
  else if c = '\'' then str "&#39;"
  else if c = '&' then str "&amp;"
  else [c]

/-- The `safeId` computed by `generateSymbol`. -/
def safeIdOf (id : List Char) : List Char := (id.map escapeChar).flatten

/-- `generateSymbol` (source lines 239-252). -/
def generateSymbol (id content viewBox : List Char) : List Char :=
  str "<symbol id=\"" ++ safeIdOf id ++ str "\" viewBox=\"" ++ viewBox ++ str "\">"
    ++ content ++ str "</symbol>"

/-- The configuration fields consumed by the modelled pipeline
(`spriteId`, `spriteClass`, `idPrefix` of `Required<SvgSpriteOptions>`). -/
structure SpriteOptions where
  spriteId : List Char
  spriteClass : List Char
  idPre : List Char

/-- `generateSprite` (source lines 257-260). -/
def generateSprite (symbols : List (List Char)) (o : SpriteOptions) : List Char :=
  let symbolsHtml :=
    if symbols.isEmpty then []
    else str "\n  " ++ List.intercalate (str "\n  ") symbols ++ str "\n"
  str "<svg id=\"" ++ o.spriteId ++ str "\" class=\"" ++ o.spriteClass
    ++ str "\" style=\"display: none;\">" ++ symbolsHtml ++ str "</svg>"

/-- Occurrence count of a pattern (the pattern `<symbol` cannot overlap
itself, so this equals the JavaScript global-match count). -/
def countOcc (pat : List Char) : List Char → Nat
  | [] => 0
  | c :: rest => (if List.isPrefixOf pat (c :: rest) then 1 else 0) + countOcc pat rest

/-- `getIconCount` (source lines 265-267). -/
def getIconCount (sprite : List Char) : Nat := countOcc (str "<symbol") sprite

/-- The sequential result loop of `buildSpriteFromFilesInternal` (source lines
907-930): files whose parse failed are skipped; a file whose identifier was
already seen is recorded in the duplicates list and emits nothing; otherwise
the identifier is added to the seen set and a symbol record is emitted. -/
def buildSymbolsGo (pre : List Char) (parse : List Char → Option ParsedSVG) :
    List (List Char) → List (List Char) → List SymbolRec × List (List Char × List Char)
  | [], _ => ([], [])
  | filePath :: rest, seen =>
    match parse filePath with
    | none => buildSymbolsGo pre parse rest seen
    | some p =>
      let symbolId := generateSymbolId filePath pre
      if symbolId ∈ seen then
        let r := buildSymbolsGo pre parse rest seen
        (r.1, (symbolId, filePath) :: r.2)
      else
        let r := buildSymbolsGo pre parse rest (symbolId :: seen)
        (⟨symbolId, filePath, p⟩ :: r.1, r.2)

/-- `buildSpriteFromFilesInternal` (source lines 901-940), with the per-file
parser passed explicitly: render each surviving symbol record and wrap the
list in the sprite container. -/
def buildSpriteFromFilesInternal (o : SpriteOptions) (parse : List Char → Option ParsedSVG)
    (svgFiles : List (List Char)) : List Char :=
  generateSprite (((buildSymbolsGo o.idPre parse svgFiles []).1).map
    (fun r => generateSymbol r.sid r.parsed.content r.parsed.viewBox)) o

/-- The sublist of files that parse successfully and derive the identifier
`d` (specification-side helper for C4). -/
def succFiles (pre : List Char) (parse : List Char → Option ParsedSVG) (d : List Char)
    (files : List (List Char)) : List (List Char) :=
  files.filter (fun f => (parse f).isSome && decide (generateSymbolId f pre = d))

/-! ## Change detector (`generateHashFromMtime`, source lines 566-587) -/
/-- The `path:mtime` string hashed for one file. -/
def mtimeEntry (file : List Char) (m : Nat) : List Char := file ++ ':' :: natChars m

/-- The stat results in completion order: `order` lists, as indices into
`svgFiles`, the order in which the concurrently issued `stat` calls of the
`Promise.all` batch complete. -/
def statOrder (order : List Nat) (svgFiles : List (List Char)) : List (List Char) :=
  order.filterMap (fun i => svgFiles[i]?)

/-- The byte string fed to the digest: the concatenation of `path:mtime` for
every file whose `stat` succeeds, in completion order (each `hash.update` runs
inside its async callback when that callback's `stat` completes). -/
def hashInput (order : List Nat) (svgFiles : List (List Char))
    (mtime : List Char → Option Nat) : List Char :=
  ((statOrder order svgFiles).filterMap (fun f => (mtime f).map (mtimeEntry f))).flatten

/-- Cache purge for a missing file: every cache entry whose key starts with
`file:` is removed (source lines 575-583). -/
def purgeFile (cache : List (List Char × ParsedSVG)) (file : List Char) :
    List (List Char × ParsedSVG) :=
  cache.filter (fun e => !(List.isPrefixOf (file ++ [':']) e.1))

/-- `generateHashFromMtime` (source lines 566-587), with the digest function,
the completion order of the stat batch and the filesystem passed explicitly:
the first 8 hex characters of the digest of `hashInput`, together with the
parse cache purged of entries for files whose `stat` failed. -/
def generateHashFromMtime (digest : List Char → List Char) (order : List Nat)
    (svgFiles : List (List Char)) (mtime : List Char → Option Nat)
    (cache : List (List Char × ParsedSVG)) :
    List Char × List (List Char × ParsedSVG) :=
  ((digest (hashInput order svgFiles mtime)).take 8,
    (svgFiles.filter (fun f => (mtime f).isNone)).foldl purgeFile cache)

/-! ## Live-update regeneration step (the debounced `regenerateSprite`
closure, source lines 1225-1268) -/
/-- Messages sent over the live-update channel. -/
inductive HmrMsg
  | update (spriteContent : List Char) (iconCount : Nat)
  | fullReload
deriving DecidableEq

/-- The plugin state touched by the regeneration step. -/
structure SpriteState where
  svgFiles : List (List Char)
  spriteContent : List Char
  lastHash : List Char
deriving DecidableEq

/-- The body of the debounced `regenerateSprite` closure, with the effectful
sub-calls passed explicitly: `newSvgFiles` is the result of `findSVGFiles`,
`newHash` the recomputed fingerprint, `build` the sprite builder.  With no
files found, an empty sprite is stored and broadcast; with a fingerprint equal
to the stored one, nothing is sent and the state is unchanged; otherwise the
sprite is rebuilt, stored and broadcast. -/
def regenerateSpriteStep (o : SpriteOptions) (build : List (List Char) → List Char)
    (newSvgFiles : List (List Char)) (newHash : List Char) (st : SpriteState) :
    SpriteState × List HmrMsg :=
  if newSvgFiles.isEmpty then
    ({ st with spriteContent := generateSprite [] o, lastHash := [] },
      [HmrMsg.update (generateSprite [] o) 0])
  else if newHash ≠ st.lastHash then
    let sprite := build newSvgFiles
    ({ svgFiles := newSvgFiles, spriteContent := sprite, lastHash := newHash },
      [HmrMsg.update sprite (getIconCount sprite)])
  else (st, [])

/-! ## Cached parser (`parseSVGCachedInternal`, source lines 814-899) -/
/-- Generic leftmost-match scan: the first suffix where the matcher returns a
value. -/
def findMap {α : Type} (m : List Char → Option α) : List Char → Option α
  | [] => none
  | c :: rest =>
    match m (c :: rest) with
    | some r => some r
    | none => findMap m rest

/-- Matcher for `viewBox\s*=\s*["']([^"']+)["']` with flag `i`, returning the
captured (non-empty) attribute value. -/
def viewBoxMatchAt (s : List Char) : Option (List Char) :=
  if ciStarts (str "viewbox") s then
    let p1 := (s.drop 7).span isSpaceChar
    match p1.2 with
    | '=' :: r3 =>
      let p2 := r3.span isSpaceChar
      match p2.2 with
      | q :: r5 =>
        if isQuoteChar q then
          let p3 := r5.span (fun c => !(isQuoteChar c))
          if p3.1.isEmpty then none
          else
            match p3.2 with
            | q2 :: _ => if isQuoteChar q2 then some p3.1 else none
            | [] => none
        else none
      | [] => none
    | _ => none
  else none

/-- First `viewBox` attribute value of the file content. -/
def viewBoxExtract (s : List Char) : Option (List Char) := findMap viewBoxMatchAt s

/-- Matcher for `<svg[^>]*>(.*?)<\/svg>` with flags `is`, returning the
captured inner markup (lazy: up to the first closing tag). -/
def svgMatchAt (s : List Char) : Option (List Char) :=
  if ciStarts (str "<svg") s then
    let p1 := (s.drop 4).span (fun c => !(c = '>'))
    match p1.2 with
    | _ :: r3 => (findIdxCI (str "</svg>") r3).map (fun j => r3.take j)
    | [] => none
  else none

/-- Inner markup between the svg tags (`svgContentMatch[1]`). -/
def svgExtract (s : List Char) : Option (List Char) := findMap svgMatchAt s

/-- Filesystem view of one icon file: its stat size and mtime, and the content
returned by the k-th read attempt (`none` models a read that throws). -/
structure FileModel where
  size : Nat
  mtimeMs : Nat
  readAt : Nat → Option (List Char)

/-- Cache key `path:mtime:optimizeFlag` (source line 823). -/
def cacheKeyOf (filePath : List Char) (mtimeMs : Nat) (svgoOpt : Bool) : List Char :=
  filePath ++ ':' :: natChars mtimeMs ++ ':' :: (if svgoOpt then ['1'] else ['0'])

/-- Cache insertion with the oldest-inserted-first eviction at
`MAX_CACHE_SIZE = 1000` (source lines 878-886); the list is insertion-ordered. -/
def cacheInsert (cache : List (List Char × ParsedSVG)) (k : List Char) (v : ParsedSVG) :
    List (List Char × ParsedSVG) :=
  let c := cache ++ [(k, v)]
  if c.length > 1000 then c.tail else c

/-- One attempt of `parseSVGCachedInternal` (source lines 814-899) as a
fallible computation: size guard, cache lookup, read, empty-content retry
(at most 3 retries, guarded by `retryCount < 3`), `<svg` presence check,
viewBox extraction with default, inner-markup extraction, sanitization,
optional optimization (via `optimize`, which models the never-throwing
`optimizeSVGInternal`), and cache insertion.  The fuel argument bounds the
structural recursion; 4 is enough for the guarded retries. -/
def parseGo (svgoOpt : Bool) (optimize : List Char → List Char) (fm : FileModel)
    (filePath : List Char) (cache : List (List Char × ParsedSVG)) :
    Nat → Nat → Except (List Char) (ParsedSVG × List (List Char × ParsedSVG))
  | 0, _ => Except.error (str "retry fuel exhausted")
  | fuel + 1, retryCount =>
    if fm.size > 5242880 then Except.error (str "File too large")
    else
      match List.lookup (cacheKeyOf filePath fm.mtimeMs svgoOpt) cache with
      | some v => Except.ok (v, cache)
      | none =>
        match fm.readAt retryCount with
        | none => Except.error (str "Failed to read file")
        | some content =>
          if (trimChars content).isEmpty then
            if retryCount < 3 then
              parseGo svgoOpt optimize fm filePath cache fuel (retryCount + 1)
            else Except.error (str "File is empty")
          else if !(containsLit (str "<svg") content) then
            Except.error (str "File does not contain svg tag")
          else
            let viewBox := (viewBoxExtract content).getD (str "0 0 24 24")
            match svgExtract content with
            | none => Except.error (str "Could not extract svg content")
            | some inner =>
              let svgContent := sanitizeSVGContent inner
              let svgContent2 :=
                if svgoOpt then
                  match svgExtract (optimize (str "<svg viewBox=\"" ++ viewBox
                      ++ str "\">" ++ svgContent ++ str "</svg>")) with
                  | some o => o
                  | none => svgContent
                else svgContent
              let result : ParsedSVG := ⟨viewBox, trimChars svgContent2⟩
              Except.ok (result,
                cacheInsert cache (cacheKeyOf filePath fm.mtimeMs svgoOpt) result)

/-- `parseSVGCachedInternal`: the surrounding try/catch — any failure anywhere
in the attempt sequence is caught and converted to a `none` result, with the
cache left unchanged. -/
def parseSVGCachedInternal (svgoOpt : Bool) (optimize : List Char → List Char)
    (fm : FileModel) (filePath : List Char) (cache : List (List Char × ParsedSVG)) :
    Option ParsedSVG × List (List Char × ParsedSVG) :=
  match parseGo svgoOpt optimize fm filePath cache 4 0 with
  | Except.ok (r, c) => (some r, c)
  | Except.error _ => (none, cache)

/-! ## Theorems -/

example : resolvePath (str "/project") (str "src/icons") = str "/project/src/icons" := by decide

example : resolvePath (str "/project") (str "../../etc") = str "/etc" := by decide

example : (validateIconsPath (str "../../etc") (str "/project")).toOption = none := by decide

example : (validateIconsPath (str "src/icons") (str "/project")).toOption
    = some (str "/project/src/icons") := by decide

example : (validateIconsPath (str "..b") (str "/project")).toOption = none := by decide

example : resolvesInside (str "/project") (resolvePath (str "/project") (str "..b")) = true := by decide

/-! ## C1: properties of the path validator -/
theorem splitSegsAux_good (s : List Char) : ∀ (acc : List Char), '/' ∉ acc →
    ∀ seg ∈ splitSegsAux acc s, seg ≠ [] ∧ '/' ∉ seg := by
  induction s with
  | nil =>
    intro acc hacc seg hseg
    simp only [splitSegsAux] at hseg
    split at hseg
    · simp at hseg
    · next hne =>
      simp only [List.mem_singleton] at hseg
      subst hseg
      refine ⟨by simpa using hne, by simpa using hacc⟩
  | cons c rest ih =>
    intro acc hacc seg hseg
    simp only [splitSegsAux] at hseg
    split at hseg
    · next hc =>
      split at hseg
      · exact ih [] (by simp) seg hseg
      · next hne =>
        rcases List.mem_cons.mp hseg with h | h
        · subst h
          exact ⟨by simpa using hne, by simpa using hacc⟩
        · exact ih [] (by simp) seg h
    · next hc =>
      refine ih (c :: acc) ?_ seg hseg
      intro hmem
      rcases List.mem_cons.mp hmem with h | h
      · exact hc h.symm
      · exact hacc h

theorem foldl_normStep_good (P : List Char → Prop) :
    ∀ (segs stack : List (List Char)),
    (∀ seg ∈ segs, P seg) →
    (∀ seg ∈ stack, P seg ∧ seg ≠ ['.'] ∧ seg ≠ ['.', '.']) →
    ∀ seg ∈ segs.foldl normStep stack, P seg ∧ seg ≠ ['.'] ∧ seg ≠ ['.', '.'] := by
  intro segs
  induction segs with
  | nil =>
    intro stack _ hstack seg hseg
    exact hstack seg hseg
  | cons a as ih =>
    intro stack hsegs hstack seg hseg
    simp only [List.foldl_cons] at hseg
    refine ih _ (fun x hx => hsegs x (List.mem_cons_of_mem _ hx)) ?_ seg hseg
    intro x hx
    simp only [normStep] at hx
    split at hx
    · exact hstack x hx
    · split at hx
      · exact hstack x (List.mem_of_mem_tail hx)
      · next h1 h2 =>
        rcases List.mem_cons.mp hx with h | h
        · subst h
          exact ⟨hsegs x (List.mem_cons_self _ _), h1, h2⟩
        · exact hstack x h

theorem pathSegs_good (s : List Char) :
    ∀ seg ∈ pathSegs s, seg ≠ [] ∧ '/' ∉ seg := by
  intro seg hseg
  have h := foldl_normStep_good (fun seg => seg ≠ [] ∧ '/' ∉ seg) (splitSegs s) []
    (splitSegsAux_good s [] (by simp)) (by simp) seg (by
      simpa [pathSegs, normSegs, List.mem_reverse] using hseg)
  exact h.1

theorem dropCommon_snd_mem : ∀ (R S : List (List Char)), ∀ x ∈ (dropCommon R S).2, x ∈ S := by
  intro R
  induction R with
  | nil =>
    intro S x hx
    simpa [dropCommon] using hx
  | cons a as ih =>
    intro S x hx
    cases S with
    | nil => simp [dropCommon] at hx
    | cons b bs =>
      simp only [dropCommon] at hx
      split at hx
      · exact List.mem_cons_of_mem _ (ih bs x hx)
      · exact hx

theorem isPre_dd_join_replicate (n : Nat) (t : List (List Char)) (hn : n ≠ 0) :
    List.isPrefixOf ['.', '.'] (joinSegs (List.replicate n ['.', '.'] ++ t)) = true := by
  cases n with
  | zero => exact absurd rfl hn
  | succ m =>
    simp only [List.replicate_succ, List.cons_append]
    cases h : List.replicate m ['.', '.'] ++ t with
    | nil => simp [joinSegs, List.isPrefixOf]
    | cons y ys => simp [joinSegs, List.isPrefixOf]

theorem isPre_dd_join (t : List (List Char)) (hgood : ∀ x ∈ t, x ≠ [] ∧ '/' ∉ x) :
    List.isPrefixOf ['.', '.'] (joinSegs t) = headDotDot t
    ∧ isAbsolutePath (joinSegs t) = false := by
  cases t with
  | nil => simp [joinSegs, List.isPrefixOf, headDotDot, isAbsolutePath]
  | cons a rest =>
    obtain ⟨hne, hslash⟩ := hgood a (List.mem_cons_self _ _)
    cases a with
    | nil => exact absurd rfl hne
    | cons c a2 =>
      have hc : ¬(c = '/') := by
        intro h
        exact hslash (by simp [h])
      cases a2 with
      | nil =>
        cases rest with
        | nil =>
          constructor
          · simp [joinSegs, List.isPrefixOf, headDotDot]
          · simp [joinSegs, isAbsolutePath, hc]
        | cons y ys =>
          constructor
          · simp [joinSegs, List.isPrefixOf, headDotDot]
          · simp [joinSegs, isAbsolutePath, hc]
      | cons c2 a3 =>
        have hjoin : ∃ u, joinSegs ((c :: c2 :: a3) :: rest) = c :: c2 :: u := by
          cases rest with
          | nil => exact ⟨a3, rfl⟩
          | cons y ys => exact ⟨a3 ++ '/' :: joinSegs (y :: ys), rfl⟩
        obtain ⟨u, hu⟩ := hjoin
        rw [hu]
        constructor
        · by_cases h1 : c = '.' <;> by_cases h2 : c2 = '.'
          · subst h1; subst h2; simp [List.isPrefixOf, headDotDot]
          · simp [List.isPrefixOf, headDotDot, h1, h2, Ne.symm h2]
          · simp [List.isPrefixOf, headDotDot, h1, h2, Ne.symm h1]
          · simp [List.isPrefixOf, headDotDot, h1, h2, Ne.symm h1]
        · simp [isAbsolutePath, hc]

/-- C1 (amended): assuming an absolute project root and a non-empty user path,
`validateIconsPath` fails for every user path whose resolution lies outside the
project root; and for every user path whose resolution lies inside the project
root it returns the normalized absolute resolved path — unless the resolved
location's path relative to the root begins with the two characters `..`
(e.g. a first segment literally named `..b`), in which case it also fails. -/
theorem c1_thm (userPath projectRoot : List Char)
    (hroot : isAbsolutePath projectRoot = true) (hne : userPath ≠ []) :
    (resolvesInside projectRoot (resolvePath projectRoot userPath) = false →
      (validateIconsPath userPath projectRoot).toOption = none)
    ∧ (resolvesInside projectRoot (resolvePath projectRoot userPath) = true →
       headDotDot (restSegs projectRoot (resolvePath projectRoot userPath)) = false →
       validateIconsPath userPath projectRoot =
         Except.ok (normalizePath (resolvePath projectRoot userPath))) := by
  have hdd : str ".." = ['.', '.'] := rfl
  constructor
  · intro houtside
    have h1 : (dropCommon (pathSegs projectRoot)
        (pathSegs (resolvePath projectRoot userPath))).1 ≠ [] := by
      simpa [resolvesInside] using houtside
    have hpre := isPre_dd_join_replicate
      ((dropCommon (pathSegs projectRoot) (pathSegs (resolvePath projectRoot userPath))).1.length)
      ((dropCommon (pathSegs projectRoot) (pathSegs (resolvePath projectRoot userPath))).2)
      (by simpa using h1)
    simp only [validateIconsPath, relativePath, if_neg hne, hdd]
    rw [hpre]
    rfl
  · intro hinside hhead
    have h1 : (dropCommon (pathSegs projectRoot)
        (pathSegs (resolvePath projectRoot userPath))).1 = [] := by
      simpa [resolvesInside] using hinside
    have hgood : ∀ x ∈ (dropCommon (pathSegs projectRoot)
        (pathSegs (resolvePath projectRoot userPath))).2, x ≠ [] ∧ '/' ∉ x := by
      intro x hx
      exact pathSegs_good _ x (dropCommon_snd_mem _ _ x hx)
    have hjj := isPre_dd_join _ hgood
    simp only [validateIconsPath, relativePath, if_neg hne, hdd, h1,
      List.length_nil, List.replicate_zero, List.nil_append]
    rw [hjj.1, hjj.2]
    simp only [restSegs] at hhead
    rw [hhead]
    simp

/-- C1 counterexample: the user path `..b` resolves inside the project root
`/project` (to `/project/..b`), yet `validateIconsPath` rejects it, so the
claim "for every userPath whose resolution lies inside projectRoot, it returns
the normalized absolute resolved path and never throws" is false as stated. -/
theorem c1_cex :
    resolvesInside (str "/project") (resolvePath (str "/project") (str "..b")) = true
    ∧ (validateIconsPath (str "..b") (str "/project")).toOption = none := by
  constructor
  · decide
  · decide

/-- C1 witness: the amended theorem applied at concrete inputs. -/
theorem c1_witness :
    (validateIconsPath (str "../../etc") (str "/project")).toOption = none
    ∧ validateIconsPath (str "src/icons") (str "/project")
        = Except.ok (normalizePath (resolvePath (str "/project") (str "src/icons"))) := by
  have h1 := c1_thm (str "../../etc") (str "/project") (by decide) (by decide)
  have h2 := c1_thm (str "src/icons") (str "/project") (by decide) (by decide)
  exact ⟨h1.1 (by decide), h2.2 (by decide) (by decide)⟩

example : sanitizeSVGContent (str "<path d=\"M0 0h24v24H0z\"/>")
    = str "<path d=\"M0 0h24v24H0z\"/>" := by decide

example : sanitizeSVGContent (str "<script>alert(1)</script><path/>") = str "<path/>" := by decide

example : sanitizeSVGContent (str "<a onclick=\"x()\" href=\"javascript:y()\">z</a>")
    = str "<a >z</a>" := by decide

example : sanitizeSVGContent (str "<foreignObject x=\"1\">bad</foreignObject>ok") = str "ok" := by
  decide

example : sanitizeSVGContent (str "<scr onx=\"a\"ipt>alert(1)</script>")
    = str "<script>alert(1)</script>" := by decide

/-- C2 (code bug): on input `<scr onx="a"ipt>alert(1)</script>` the sanitizer
output is exactly `<script>alert(1)</script>` — removing the event-handler
attribute splices the surrounding text into a script element, so the sanitized
markup does contain a script element (it even still matches the sanitizer's
own script pattern), contradicting the claimed invariant. -/
theorem c2_thm :
    sanitizeSVGContent (str "<scr onx=\"a\"ipt>alert(1)</script>")
      = str "<script>alert(1)</script>"
    ∧ containsLit (str "<script")
        (sanitizeSVGContent (str "<scr onx=\"a\"ipt>alert(1)</script>")) = true
    ∧ matchFree scriptMatchAt
        (sanitizeSVGContent (str "<scr onx=\"a\"ipt>alert(1)</script>")) = false := by
  refine ⟨by decide, by decide, by decide⟩

/-- C3 counterexample: sanitizing `<scr onx="a"ipt>alert(1)</script>` twice
does not equal sanitizing it once (the first pass leaves a re-matchable
script element, which the second pass removes). -/
theorem c3_cex :
    sanitizeSVGContent (sanitizeSVGContent (str "<scr onx=\"a\"ipt>alert(1)</script>"))
      ≠ sanitizeSVGContent (str "<scr onx=\"a\"ipt>alert(1)</script>") := by decide

theorem removeAllAux_matchFree (m : List Char → Option Nat) :
    ∀ (fuel : Nat) (s : List Char), s.length ≤ fuel → matchFree m s = true →
    removeAllAux m fuel s = s := by
  intro fuel
  induction fuel with
  | zero =>
    intro s hlen _
    cases s with
    | nil => rfl
    | cons c r => simp at hlen
  | succ f ih =>
    intro s hlen hfree
    cases s with
    | nil => rfl
    | cons c r =>
      simp only [matchFree, Bool.and_eq_true, Option.isNone_iff_eq_none] at hfree
      simp only [removeAllAux, hfree.1]
      rw [ih r (Nat.le_of_succ_le_succ (by simpa using hlen)) hfree.2]

theorem removeAll_matchFree (m : List Char → Option Nat) (s : List Char)
    (h : matchFree m s = true) : removeAll m s = s :=
  removeAllAux_matchFree m s.length s le_rfl h

/-- C3 (amended): applying the sanitizer twice yields the same result as
applying it once for every input whose once-sanitized form contains no
remaining match of any of the five security patterns; in general a second
application can remove further content (see the counterexample). -/
theorem c3_thm (s : List Char) (h : matchFreeAll (sanitizeSVGContent s) = true) :
    sanitizeSVGContent (sanitizeSVGContent s) = sanitizeSVGContent s := by
  simp only [matchFreeAll, Bool.and_eq_true] at h
  obtain ⟨⟨⟨⟨h1, h2⟩, h3⟩, h4⟩, h5⟩ := h
  conv_lhs => rw [sanitizeSVGContent]
  rw [removeAll_matchFree _ _ h1, removeAll_matchFree _ _ h2, removeAll_matchFree _ _ h3,
    removeAll_matchFree _ _ h4, removeAll_matchFree _ _ h5]

/-- C3 witness: the amended theorem applied at a concrete match-free input. -/
theorem c3_witness :
    matchFreeAll (sanitizeSVGContent (str "<g/>")) = true
    ∧ sanitizeSVGContent (sanitizeSVGContent (str "<g/>")) = sanitizeSVGContent (str "<g/>") :=
  ⟨by decide, c3_thm (str "<g/>") (by decide)⟩

example : generateSymbolId (str "home.svg") (str "icon") = str "icon-home" := by decide

example : generateSymbolId (str "src/icons/user profile.svg") [] = str "user-profile" := by decide

example : generateSymbolId (str "Home.svg") [] = str "Home" := by decide

example : nodeBasenameExt (str ".svg") (str ".svg") = str ".svg" := by decide

theorem collapseGo_mem_ident :
    ∀ (s : List Char) (b : Bool), ∀ c ∈ collapseGo b s, isIdentChar c = true := by
  intro s
  induction s with
  | nil => intro b c hc; simp [collapseGo] at hc
  | cons a rest ih =>
    intro b c hc
    simp only [collapseGo] at hc
    split at hc
    · next ha =>
      rcases List.mem_cons.mp hc with h | h
      · subst h; exact ha
      · exact ih false c h
    · split at hc
      · exact ih true c hc
      · rcases List.mem_cons.mp hc with h | h
        · subst h; rfl
        · exact ih true c h

theorem trimDashes_mem (s : List Char) : ∀ c ∈ trimDashes s, c ∈ s := by
  intro c hc
  simp only [trimDashes, List.mem_reverse] at hc
  have h1 := (List.dropWhile_sublist (l := (s.dropWhile fun c => c = '-').reverse)
    (p := fun c => c = '-')).subset hc
  rw [List.mem_reverse] at h1
  exact (List.dropWhile_sublist (l := s) (p := fun c => c = '-')).subset h1

/-- C8 (amended): the symbol identifier is computed deterministically from the
icon's file name by replacing runs of characters outside `[a-zA-Z0-9-_]` with
a dash and trimming leading/trailing dashes — preserving letter case, with no
lowercasing — and the configured non-empty prefix is prepended with a dash; in
particular, with identifier prefix `icon` and file `home.svg` the resulting
identifier is `icon-home`. -/
theorem c8_thm :
    (∀ filePath pre : List Char, pre ≠ [] →
      generateSymbolId filePath pre = pre ++ '-' :: cleanNameOf filePath
      ∧ (cleanNameOf filePath).all isIdentChar = true)
    ∧ generateSymbolId (str "home.svg") (str "icon") = str "icon-home" := by
  constructor
  · intro filePath pre hpre
    refine ⟨by simp [generateSymbolId, hpre], ?_⟩
    rw [List.all_eq_true]
    intro c hc
    exact collapseGo_mem_ident _ false c (trimDashes_mem _ c hc)
  · decide

/-- C8 counterexample: the source does not lowercase the file name — for the
file `Home.svg` the derived identifier is `icon-Home`, not the `icon-home`
that the claimed lowercasing step would produce. -/
theorem c8_cex :
    generateSymbolId (str "Home.svg") (str "icon")
      ≠ generateSymbolIdSpec (str "Home.svg") (str "icon") := by decide

/-- C8 witness: the amended theorem applied at a concrete file and prefix. -/
theorem c8_witness :
    generateSymbolId (str "home.svg") (str "icon")
      = str "icon" ++ '-' :: cleanNameOf (str "home.svg")
    ∧ (cleanNameOf (str "home.svg")).all isIdentChar = true :=
  c8_thm.1 (str "home.svg") (str "icon") (by decide)

/-- C7: with an empty used-identifier set, `filterUsedSvgFiles` returns the
full input list unfiltered; with a non-empty set it returns exactly those
input files whose derived identifier is a member of the set. -/
theorem c7_thm (allSvgFiles usedIconIds : List (List Char)) (idPre : List Char) :
    (usedIconIds = [] → filterUsedSvgFiles allSvgFiles usedIconIds idPre = allSvgFiles)
    ∧ (usedIconIds ≠ [] → ∀ f : List Char,
        f ∈ filterUsedSvgFiles allSvgFiles usedIconIds idPre
          ↔ f ∈ allSvgFiles ∧ generateSymbolId f idPre ∈ usedIconIds) := by
  constructor
  · intro h
    subst h
    rfl
  · intro h f
    have hne : usedIconIds.isEmpty = false := by
      cases usedIconIds with
      | nil => exact absurd rfl h
      | cons a as => rfl
    simp [filterUsedSvgFiles, hne, List.mem_filter, List.contains, List.elem_iff]

/-- C7 witness: the theorem applied at concrete inputs. -/
theorem c7_witness :
    filterUsedSvgFiles [str "a.svg", str "b.svg"] [] (str "icon") = [str "a.svg", str "b.svg"]
    ∧ (str "a.svg" ∈ filterUsedSvgFiles [str "a.svg", str "b.svg"] [str "icon-a"] (str "icon")
        ↔ str "a.svg" ∈ [str "a.svg", str "b.svg"]
          ∧ generateSymbolId (str "a.svg") (str "icon") ∈ [str "icon-a"]) :=
  ⟨(c7_thm _ _ _).1 rfl, (c7_thm _ _ (str "icon")).2 (by simp) (str "a.svg")⟩

theorem buildGo_count (pre : List Char) (parse : List Char → Option ParsedSVG) (d : List Char) :
    ∀ (files seen : List (List Char)),
    ((buildSymbolsGo pre parse files seen).1.filter (fun r => decide (r.sid = d))).length
      = if d ∈ seen then 0 else if succFiles pre parse d files = [] then 0 else 1 := by
  intro files
  induction files with
  | nil =>
    intro seen
    simp [buildSymbolsGo, succFiles]
  | cons f rest ih =>
    intro seen
    cases hp : parse f with
    | none =>
      have hsucc : succFiles pre parse d (f :: rest) = succFiles pre parse d rest := by
        simp [succFiles, List.filter_cons, hp]
      simp only [buildSymbolsGo, hp, hsucc]
      exact ih seen
    | some p =>
      by_cases hd : generateSymbolId f pre = d
      · subst hd
        have hsucc : succFiles pre parse (generateSymbolId f pre) (f :: rest)
            = f :: succFiles pre parse (generateSymbolId f pre) rest := by
          simp [succFiles, List.filter_cons, hp]
        by_cases hs : generateSymbolId f pre ∈ seen
        · simp only [buildSymbolsGo, hp, if_pos hs]
          rw [ih seen]
          simp [hs]
        · simp only [buildSymbolsGo, hp, if_neg hs]
          simp [List.filter_cons, ih (generateSymbolId f pre :: seen), hs, hsucc]
      · have hsucc : succFiles pre parse d (f :: rest) = succFiles pre parse d rest := by
          simp [succFiles, List.filter_cons, hp, hd]
        by_cases hs : generateSymbolId f pre ∈ seen
        · simp only [buildSymbolsGo, hp, if_pos hs]
          rw [ih seen, hsucc]
        · simp only [buildSymbolsGo, hp, if_neg hs]
          simp [List.filter_cons, ih (generateSymbolId f pre :: seen), hd, Ne.symm hd, hsucc]

theorem buildGo_dups (pre : List Char) (parse : List Char → Option ParsedSVG) (d : List Char) :
    ∀ (files seen : List (List Char)),
    ((buildSymbolsGo pre parse files seen).2.filter (fun e => decide (e.1 = d))).length
      = if d ∈ seen then (succFiles pre parse d files).length
        else (succFiles pre parse d files).length
            - (if succFiles pre parse d files = [] then 0 else 1) := by
  intro files
  induction files with
  | nil =>
    intro seen
    simp [buildSymbolsGo, succFiles]
  | cons f rest ih =>
    intro seen
    cases hp : parse f with
    | none =>
      have hsucc : succFiles pre parse d (f :: rest) = succFiles pre parse d rest := by
        simp [succFiles, List.filter_cons, hp]
      simp only [buildSymbolsGo, hp, hsucc]
      exact ih seen
    | some p =>
      by_cases hd : generateSymbolId f pre = d
      · subst hd
        have hsucc : succFiles pre parse (generateSymbolId f pre) (f :: rest)
            = f :: succFiles pre parse (generateSymbolId f pre) rest := by
          simp [succFiles, List.filter_cons, hp]
        by_cases hs : generateSymbolId f pre ∈ seen
        · simp only [buildSymbolsGo, hp, if_pos hs]
          simp [List.filter_cons, ih seen, hs, hsucc]
        · simp only [buildSymbolsGo, hp, if_neg hs]
          simp [List.filter_cons, ih (generateSymbolId f pre :: seen), hs, hsucc]
      · have hsucc : succFiles pre parse d (f :: rest) = succFiles pre parse d rest := by
          simp [succFiles, List.filter_cons, hp, hd]
        by_cases hs : generateSymbolId f pre ∈ seen
        · simp only [buildSymbolsGo, hp, if_pos hs]
          simp [List.filter_cons, ih seen, hd, hsucc]
        · simp only [buildSymbolsGo, hp, if_neg hs]
          simp [List.filter_cons, ih (generateSymbolId f pre :: seen), hd, Ne.symm hd, hsucc]

theorem buildGo_find (pre : List Char) (parse : List Char → Option ParsedSVG) (d : List Char) :
    ∀ (files seen : List (List Char)),
    (((buildSymbolsGo pre parse files seen).1.find? (fun r => decide (r.sid = d))).map
        SymbolRec.fp)
      = if d ∈ seen then none else (succFiles pre parse d files).head? := by
  intro files
  induction files with
  | nil =>
    intro seen
    simp [buildSymbolsGo, succFiles]
  | cons f rest ih =>
    intro seen
    cases hp : parse f with
    | none =>
      have hsucc : succFiles pre parse d (f :: rest) = succFiles pre parse d rest := by
        simp [succFiles, List.filter_cons, hp]
      simp only [buildSymbolsGo, hp, hsucc]
      exact ih seen
    | some p =>
      by_cases hd : generateSymbolId f pre = d
      · subst hd
        have hsucc : succFiles pre parse (generateSymbolId f pre) (f :: rest)
            = f :: succFiles pre parse (generateSymbolId f pre) rest := by
          simp [succFiles, List.filter_cons, hp]
        by_cases hs : generateSymbolId f pre ∈ seen
        · simp only [buildSymbolsGo, hp, if_pos hs]
          simp [ih seen, hs]
        · simp only [buildSymbolsGo, hp, if_neg hs]
          simp [List.find?, hs, hsucc]
      · have hsucc : succFiles pre parse d (f :: rest) = succFiles pre parse d rest := by
          simp [succFiles, List.filter_cons, hp, hd]
        by_cases hs : generateSymbolId f pre ∈ seen
        · simp only [buildSymbolsGo, hp, if_pos hs]
          simp [ih seen, hsucc]
        · simp only [buildSymbolsGo, hp, if_neg hs]
          simp [List.find?, hd, ih (generateSymbolId f pre :: seen), Ne.symm hd, hsucc]

/-- C4: in one assembly pass over any file list, for any identifier `d`: the
emitted symbol records carry exactly one record with identifier `d` when at
least one successfully parsed file derives `d` (and none otherwise); the
duplicates list records all remaining such files (N−1 of N); and the single
emitted record comes from the first successfully parsed file deriving `d` in
processing order — a later duplicate never replaces it.  The assembled sprite
`buildSpriteFromFilesInternal` is exactly these records rendered in order. -/
theorem c4_thm (pre : List Char) (parse : List Char → Option ParsedSVG)
    (files : List (List Char)) (d : List Char) :
    ((buildSymbolsGo pre parse files []).1.filter (fun r => decide (r.sid = d))).length
      = (if succFiles pre parse d files = [] then 0 else 1)
    ∧ ((buildSymbolsGo pre parse files []).2.filter (fun e => decide (e.1 = d))).length
      = (succFiles pre parse d files).length
          - (if succFiles pre parse d files = [] then 0 else 1)
    ∧ (((buildSymbolsGo pre parse files []).1.find? (fun r => decide (r.sid = d))).map
          SymbolRec.fp)
      = (succFiles pre parse d files).head? := by
  refine ⟨?_, ?_, ?_⟩
  · simpa using buildGo_count pre parse d files []
  · simpa using buildGo_dups pre parse d files []
  · simpa using buildGo_find pre parse d files []

/-- C10: the derived symbol identifier depends only on the file's base name,
never on its directory; consequently two identically-named icon files in
different subdirectories always collide — in a two-file list both parsing
successfully, only the first contributes a symbol record and the second is
recorded as a duplicate. -/
theorem c10_thm :
    (∀ (pre fp1 fp2 : List Char), nodeBasename fp1 = nodeBasename fp2 →
      generateSymbolId fp1 pre = generateSymbolId fp2 pre)
    ∧ (∀ (pre fp1 fp2 : List Char) (parse : List Char → Option ParsedSVG) (p1 p2 : ParsedSVG),
        nodeBasename fp1 = nodeBasename fp2 →
        parse fp1 = some p1 → parse fp2 = some p2 →
        buildSymbolsGo pre parse [fp1, fp2] []
          = ([⟨generateSymbolId fp1 pre, fp1, p1⟩], [(generateSymbolId fp1 pre, fp2)])) := by
  have hbase : ∀ (pre fp1 fp2 : List Char), nodeBasename fp1 = nodeBasename fp2 →
      generateSymbolId fp1 pre = generateSymbolId fp2 pre := by
    intro pre fp1 fp2 h
    simp [generateSymbolId, cleanNameOf, nodeBasenameExt, h]
  refine ⟨hbase, ?_⟩
  intro pre fp1 fp2 parse p1 p2 h h1 h2
  have hid := hbase pre fp1 fp2 h
  simp [buildSymbolsGo, h1, h2, ← hid]

/-- C10 witness: two files named `home.svg` in different directories, both
parsing successfully. -/
theorem c10_witness :
    generateSymbolId (str "a/home.svg") (str "icon")
      = generateSymbolId (str "b/home.svg") (str "icon")
    ∧ buildSymbolsGo (str "icon") (fun _ => some ⟨str "0 0 24 24", str "<path/>"⟩)
        [str "a/home.svg", str "b/home.svg"] []
      = ([⟨generateSymbolId (str "a/home.svg") (str "icon"), str "a/home.svg",
            ⟨str "0 0 24 24", str "<path/>"⟩⟩],
         [(generateSymbolId (str "a/home.svg") (str "icon"), str "b/home.svg")]) :=
  ⟨c10_thm.1 (str "icon") _ _ (by decide),
   c10_thm.2 (str "icon") _ _ _ _ _ (by decide) rfl rfl⟩

/-- C5 counterexample: with two files and the stat batch completing in the
order second-then-first (a permutation of the issue order, which the runtime
does not constrain), the digest input differs from the file-list-order
concatenation prescribed by the claim. -/
theorem c5_cex :
    List.Perm [1, 0] (List.range 2)
    ∧ hashInput [1, 0] [str "a.svg", str "b.svg"]
          (fun f => if f = str "a.svg" then some 1 else some 2)
        ≠ hashInput [0, 1] [str "a.svg", str "b.svg"]
          (fun f => if f = str "a.svg" then some 1 else some 2) := by
  constructor
  · decide
  · decide

theorem statOrder_range : ∀ (svgFiles : List (List Char)),
    statOrder (List.range svgFiles.length) svgFiles = svgFiles := by
  intro files
  induction files with
  | nil => rfl
  | cons f fs ih =>
    have hr : List.range (fs.length + 1) = 0 :: (List.range fs.length).map Nat.succ :=
      List.range_succ_eq_map fs.length
    simp only [statOrder, List.length_cons, hr, List.filterMap_cons, List.filterMap_map,
      List.getElem?_cons_zero]
    have hfun : ((fun i => (f :: fs)[i]?) ∘ Nat.succ) = (fun i => fs[i]?) := by
      funext i
      simp
    rw [hfun]
    simpa [statOrder] using ih

/-- C5 (amended): the fingerprint is the first 8 characters of the digest of
the `path:mtime` concatenation in STAT-COMPLETION order, not in a fixed
file-list order; when the batch completes in file-list order it equals the
digest of the ordered file-list concatenation; it does not depend on the
parse-cache argument, so recomputation over an unchanged file set with the
same completion order yields the identical fingerprint. -/
theorem c5_thm (digest : List Char → List Char) (svgFiles : List (List Char))
    (mtime : List Char → Option Nat) (cache cache2 : List (List Char × ParsedSVG)) :
    (generateHashFromMtime digest (List.range svgFiles.length) svgFiles mtime cache).1
      = (digest ((svgFiles.filterMap (fun f => (mtime f).map (mtimeEntry f))).flatten)).take 8
    ∧ (generateHashFromMtime digest (List.range svgFiles.length) svgFiles mtime cache).1
      = (generateHashFromMtime digest (List.range svgFiles.length) svgFiles mtime cache2).1 := by
  constructor
  · simp [generateHashFromMtime, hashInput, statOrder_range]
  · rfl

/-- C9: a watched change whose rescan finds a non-empty file set and whose
recomputed fingerprint (same files, same mtimes, same stat-completion order as
the stored fingerprint's computation) equals the stored one sends no message
over the live-update channel and leaves the plugin state unchanged. -/
theorem c9_thm (o : SpriteOptions) (build : List (List Char) → List Char)
    (digest : List Char → List Char) (order : List Nat)
    (newSvgFiles : List (List Char)) (mtime : List Char → Option Nat)
    (cache : List (List Char × ParsedSVG)) (st : SpriteState)
    (hne : newSvgFiles ≠ [])
    (hhash : st.lastHash = (generateHashFromMtime digest order newSvgFiles mtime cache).1) :
    regenerateSpriteStep o build newSvgFiles
        (generateHashFromMtime digest order newSvgFiles mtime cache).1 st
      = (st, []) := by
  have hempty : newSvgFiles.isEmpty = false := by
    cases newSvgFiles with
    | nil => exact absurd rfl hne
    | cons a as => rfl
  simp [regenerateSpriteStep, hempty, hhash]

/-- C9 witness: a concrete no-op change event. -/
theorem c9_witness :
    regenerateSpriteStep ⟨str "sprite-id", str "sprite-class", []⟩ (fun _ => [])
        [str "a.svg"]
        (generateHashFromMtime (fun x => x) [0] [str "a.svg"] (fun _ => some 5) []).1
        ⟨[str "a.svg"], [],
          (generateHashFromMtime (fun x => x) [0] [str "a.svg"] (fun _ => some 5) []).1⟩
      = (⟨[str "a.svg"], [],
          (generateHashFromMtime (fun x => x) [0] [str "a.svg"] (fun _ => some 5) []).1⟩, []) :=
  c9_thm _ _ _ _ _ _ _ _ (by decide) rfl

example : svgExtract (str "<svg viewBox=\"0 0 24 24\"><path/></svg>") = some (str "<path/>") := by
  decide

example : viewBoxExtract (str "<svg viewBox=\"0 0 24 24\">") = some (str "0 0 24 24") := by decide

example : (parseSVGCachedInternal false (fun x => x)
    ⟨100, 7, fun _ => some (str "<svg viewBox=\"0 0 24 24\"><path/></svg>")⟩
    (str "a.svg") []).1 = some ⟨str "0 0 24 24", str "<path/>"⟩ := by decide

theorem parse_none_of_error {svgoOpt : Bool} {optimize : List Char → List Char}
    {fm : FileModel} {filePath : List Char} {cache : List (List Char × ParsedSVG)}
    (h : ∃ e, parseGo svgoOpt optimize fm filePath cache 4 0 = Except.error e) :
    (parseSVGCachedInternal svgoOpt optimize fm filePath cache).1 = none := by
  obtain ⟨e, he⟩ := h
  simp [parseSVGCachedInternal, he]

theorem parseGo_size (svgoOpt : Bool) (optimize : List Char → List Char) (fm : FileModel)
    (filePath : List Char) (cache : List (List Char × ParsedSVG))
    (hsz : fm.size > 5242880) : ∀ (fuel retryCount : Nat),
    parseGo svgoOpt optimize fm filePath cache (fuel + 1) retryCount
      = Except.error (str "File too large") := by
  intro fuel retryCount
  simp [parseGo, hsz]

theorem parseGo_empty (svgoOpt : Bool) (optimize : List Char → List Char) (fm : FileModel)
    (filePath : List Char) (cache : List (List Char × ParsedSVG))
    (hcache : List.lookup (cacheKeyOf filePath fm.mtimeMs svgoOpt) cache = none)
    (hread : ∀ k, k ≤ 3 → ∀ c, fm.readAt k = some c → (trimChars c).isEmpty = true) :
    ∀ (fuel retryCount : Nat), 4 ≤ retryCount + fuel → retryCount ≤ 3 →
    ∃ e, parseGo svgoOpt optimize fm filePath cache fuel retryCount = Except.error e := by
  intro fuel
  induction fuel with
  | zero =>
    intro retryCount h1 h2
    exact ((by omega : False).elim)
  | succ f ih =>
    intro retryCount h1 h2
    by_cases hsz : fm.size > 5242880
    · exact ⟨str "File too large", by simp [parseGo, hsz]⟩
    · cases hr : fm.readAt retryCount with
      | none => exact ⟨str "Failed to read file", by simp [parseGo, hsz, hcache, hr]⟩
      | some c =>
        have htrim := hread retryCount h2 c hr
        by_cases hlt : retryCount < 3
        · obtain ⟨e, he⟩ := ih (retryCount + 1) (by omega) (by omega)
          exact ⟨e, by simp [parseGo, hsz, hcache, hr, htrim, hlt, he]⟩
        · exact ⟨str "File is empty", by simp [parseGo, hsz, hcache, hr, htrim, hlt]⟩

theorem parseGo_nosvg (svgoOpt : Bool) (optimize : List Char → List Char) (fm : FileModel)
    (filePath : List Char) (cache : List (List Char × ParsedSVG))
    (fuel retryCount : Nat) (content : List Char)
    (hcache : List.lookup (cacheKeyOf filePath fm.mtimeMs svgoOpt) cache = none)
    (hr : fm.readAt retryCount = some content)
    (htrim : (trimChars content).isEmpty = false)
    (hsvg : containsLit (str "<svg") content = false) :
    ∃ e, parseGo svgoOpt optimize fm filePath cache (fuel + 1) retryCount
      = Except.error e := by
  by_cases hsz : fm.size > 5242880
  · exact ⟨str "File too large", by simp [parseGo, hsz]⟩
  · exact ⟨str "File does not contain svg tag",
      by simp [parseGo, hsz, hcache, hr, htrim, hsvg]⟩

theorem parseGo_noextract (svgoOpt : Bool) (optimize : List Char → List Char) (fm : FileModel)
    (filePath : List Char) (cache : List (List Char × ParsedSVG))
    (fuel retryCount : Nat) (content : List Char)
    (hcache : List.lookup (cacheKeyOf filePath fm.mtimeMs svgoOpt) cache = none)
    (hr : fm.readAt retryCount = some content)
    (htrim : (trimChars content).isEmpty = false)
    (hext : svgExtract content = none) :
    ∃ e, parseGo svgoOpt optimize fm filePath cache (fuel + 1) retryCount
      = Except.error e := by
  by_cases hsz : fm.size > 5242880
  · exact ⟨str "File too large", by simp [parseGo, hsz]⟩
  · by_cases hsvg : containsLit (str "<svg") content = false
    · exact ⟨str "File does not contain svg tag",
        by simp [parseGo, hsz, hcache, hr, htrim, hsvg]⟩
    · rw [Bool.not_eq_false] at hsvg
      exact ⟨str "Could not extract svg content",
        by simp [parseGo, hsz, hcache, hr, htrim, hsvg, hext]⟩

/-- C6: the cached parser yields `none` (never a build-aborting failure)
whenever a step fails — a stat size above the 5 MB ceiling; content still
trim-empty on the initial read and on all 3 retries; content without an
opening `<svg` tag; or content from which the markup between the svg tags
cannot be extracted.  (Cache-miss hypotheses exclude the cache short-circuit,
which precedes the failing steps.) -/
theorem c6_thm (svgoOpt : Bool) (optimize : List Char → List Char) (fm : FileModel)
    (filePath : List Char) (cache : List (List Char × ParsedSVG)) :
    (fm.size > 5242880 →
      (parseSVGCachedInternal svgoOpt optimize fm filePath cache).1 = none)
    ∧ (List.lookup (cacheKeyOf filePath fm.mtimeMs svgoOpt) cache = none →
       (∀ k, k ≤ 3 → ∀ c, fm.readAt k = some c → (trimChars c).isEmpty = true) →
       (parseSVGCachedInternal svgoOpt optimize fm filePath cache).1 = none)
    ∧ (∀ content : List Char,
       List.lookup (cacheKeyOf filePath fm.mtimeMs svgoOpt) cache = none →
       fm.readAt 0 = some content → (trimChars content).isEmpty = false →
       containsLit (str "<svg") content = false →
       (parseSVGCachedInternal svgoOpt optimize fm filePath cache).1 = none)
    ∧ (∀ content : List Char,
       List.lookup (cacheKeyOf filePath fm.mtimeMs svgoOpt) cache = none →
       fm.readAt 0 = some content → (trimChars content).isEmpty = false →
       svgExtract content = none →
       (parseSVGCachedInternal svgoOpt optimize fm filePath cache).1 = none) := by
  refine ⟨?_, ?_, ?_, ?_⟩
  · intro hsz
    exact parse_none_of_error ⟨_, parseGo_size svgoOpt optimize fm filePath cache hsz 3 0⟩
  · intro hcache hread
    exact parse_none_of_error
      (parseGo_empty svgoOpt optimize fm filePath cache hcache hread 4 0 (by omega) (by omega))
  · intro content hcache hr htrim hsvg
    exact parse_none_of_error
      (parseGo_nosvg svgoOpt optimize fm filePath cache 3 0 content hcache hr htrim hsvg)
  · intro content hcache hr htrim hext
    exact parse_none_of_error
      (parseGo_noextract svgoOpt optimize fm filePath cache 3 0 content hcache hr htrim hext)

/-- C6 witness: the four failure modes at concrete files (oversized; reads
always whitespace; no `<svg` tag; unclosed svg tag). -/
theorem c6_witness :
    (parseSVGCachedInternal false (fun x => x)
        ⟨6000000, 1, fun _ => some (str "<svg></svg>")⟩ (str "a.svg") []).1 = none
    ∧ (parseSVGCachedInternal false (fun x => x)
        ⟨10, 1, fun _ => some (str "  ")⟩ (str "b.svg") []).1 = none
    ∧ (parseSVGCachedInternal false (fun x => x)
        ⟨10, 1, fun _ => some (str "hello")⟩ (str "c.svg") []).1 = none
    ∧ (parseSVGCachedInternal false (fun x => x)
        ⟨10, 1, fun _ => some (str "<svg fo")⟩ (str "d.svg") []).1 = none := by
  refine ⟨(c6_thm _ _ _ _ _).1 (by decide), ?_, ?_, ?_⟩
  · refine (c6_thm _ _ _ _ _).2.1 (by decide) ?_
    intro k hk c hc
    simp only at hc
    cases hc
    decide
  · exact (c6_thm _ _ _ _ _).2.2.1 (str "hello") (by decide) rfl (by decide) (by decide)
  · exact (c6_thm _ _ _ _ _).2.2.2 (str "<svg fo") (by decide) rfl (by decide) (by decide)
